import Mathlib

/-!
# Verification of the Letterboxd scraping / ingestion pipeline

Shallow embedding of the repository's active scraper (`Project/readRatings.py`),
ingestion pipeline (`Project/ingestRatings.py`, `Project/buildMovieDatabase.py`)
and store layer (`Project/database.py`), together with theorems settling the
frozen specification claims.

Strings scraped from rating spans are modelled as `List Char`; SQL tables are
modelled as Lean lists of row structures, with the conflict behaviour of each
statement translated from its `ON CONFLICT` clause.
-/

namespace Letterboxd

/-- `readRatings.stars_to_score` (identical in `getUserMovies.py`):
`if not star_str: return None; return star_str.count("★")*2 + star_str.count("½")`.
Note: the active decoder applies no cap on the glyph counts. -/
def stars_to_score (star_str : List Char) : Option Nat :=
  if star_str = [] then none
  else some (star_str.count '★' * 2 + star_str.count '½')

/-- `archived/getUserMovies.stars_to_score`: the archived variant caps the
counts (`full = min(full, 5); half = min(half, 1)`) before scoring. -/
def archivedStarsToScore (star_str : List Char) : Option Nat :=
  if star_str = [] then none
  else some (min (star_str.count '★') 5 * 2 + min (star_str.count '½') 1)

/-- One scraped film dict, as appended to `all_films` in
`readRatings.fetch_rating_info` (keys `slug, title, poster_url, display_name,
rating, liked, year, page`). -/
structure Film where
  slug : String
  title : Option String
  poster_url : Option String
  display_name : Option String
  rating : Option Nat
  liked : Bool
  year : Option Int
  page : Nat
deriving Repr, DecidableEq

/-- The `div.react-component` inside a grid item: `data-item-slug` attribute
(the empty string models a missing or empty attribute, both falsy in Python)
and the optional `data-item-name` attribute. -/
structure ReactComponent where
  dataItemSlug : String
  dataItemName : Option String
deriving Repr, DecidableEq

/-- The `p.poster-viewingdata` element: optional `span.rating` text and the
class list of an optional `span.like` element. -/
structure ViewingData where
  ratingText : Option (List Char)
  likeClasses : Option (List String)
deriving Repr, DecidableEq

/-- One `li.griditem` of a listing page. -/
structure RawItem where
  reactComponent : Option ReactComponent
  viewingData : Option ViewingData
deriving Repr, DecidableEq

/-- Outcome of fetching and souping one listing page: non-200 response,
a document without the `ul.grid -p70` container, or the container's
`li.griditem` children. -/
inductive PageResult where
  | httpError
  | noGrid
  | grid (items : List RawItem)
deriving Repr, DecidableEq

/-- The per-item body of the `for li in items` loop in
`readRatings.fetch_rating_info`: skip when `div.react-component` is missing or
the slug is falsy; decode the rating from the `span.rating` text when present;
the liked flag requires a `span.like` whose class list contains
`liked-micro`; `poster_url` and `year` are always set to `None`. -/
def parseItem (display_name : Option String) (page : Nat) (li : RawItem) :
    Option Film :=
  match li.reactComponent with
  | none => none
  | some rc =>
    if rc.dataItemSlug = "" then none
    else
      let rating : Option Nat :=
        match li.viewingData with
        | none => none
        | some vd =>
          match vd.ratingText with
          | none => none
          | some txt => stars_to_score txt
      let liked : Bool :=
        match li.viewingData with
        | none => false
        | some vd =>
          match vd.likeClasses with
          | none => false
          | some cls => cls.contains "liked-micro"
      some { slug := rc.dataItemSlug
             title := rc.dataItemName
             poster_url := none
             display_name := display_name
             rating := rating
             liked := liked
             year := none
             page := page }

/-- The sequential `for page in range(1, max_pages + 1)` loop of
`readRatings.fetch_rating_info`: stop on a non-200 response, a missing grid
container or an empty item list; otherwise append the parsed items (tagged
with the current page) and continue.  `site` abstracts the remote listing
pages; the fuel argument counts the remaining loop iterations. -/
def pageLoop (dn : Option String) (site : Nat → PageResult) :
    Nat → Nat → List Film → List Film
  | 0, _, acc => acc
  | fuel + 1, page, acc =>
    match site page with
    | .httpError => acc
    | .noGrid => acc
    | .grid items =>
      if items = [] then acc
      else pageLoop dn site fuel (page + 1)
        (acc ++ items.filterMap (parseItem dn page))

/-- Default `max_pages` of `fetch_rating_info`. -/
def maxPages : Nat := 50

/-- `readRatings.fetch_rating_info`, given the display name resolved from the
first profile page and the site's listing pages. -/
def fetch_rating_info (dn : Option String) (site : Nat → PageResult) :
    List Film :=
  pageLoop dn site maxPages 1 []

/-- A row of the `ratings` table: `(user_id, rating, liked, movie_id)`. -/
structure RatingsRow where
  user_id : String
  rating : Nat
  liked : Bool
  movie_id : String
deriving Repr, DecidableEq

/-- A row of the `movies` table:
`(movie_id, title, poster_link, release_year, rating_amount)`. -/
structure MoviesRow where
  movie_id : String
  title : Option String
  poster_link : Option String
  release_year : Option Int
  rating_amount : Int
deriving Repr, DecidableEq

/-- A row of the `user_pool` table: `(user_id, username, last_page_scraped)`. -/
structure UserPoolRow where
  user_id : String
  username : Option String
  last_page_scraped : Nat
deriving Repr, DecidableEq

/-- The persistent store: the three tables touched by the pipeline. -/
structure DB where
  ratings : List RatingsRow
  movies : List MoviesRow
  user_pool : List UserPoolRow
deriving Repr, DecidableEq

def emptyDB : DB := ⟨[], [], []⟩

/-- Modelled from the spec: the `ratings` table's unique constraint is not in
the repository's sources (`database.insert_ratings` says only
`ON CONFLICT DO NOTHING`); spec §3 states "a given (accountId, slug) pair is
logically idempotent", so the conflict key is `(user_id, movie_id)`. -/
def ratingsHasKey (tbl : List RatingsRow) (u m : String) : Bool :=
  tbl.any (fun r => r.user_id == u && r.movie_id == m)

/-- One value row of `database.insert_ratings`'s
`INSERT ... ON CONFLICT DO NOTHING`: skip when the key is already present
(also against rows inserted earlier in the same batch, as in Postgres),
otherwise append. -/
def insertRatingsRow (tbl : List RatingsRow) (row : RatingsRow) :
    List RatingsRow :=
  if ratingsHasKey tbl row.user_id row.movie_id then tbl else tbl ++ [row]

/-- `database.insert_ratings`: bulk insert with `ON CONFLICT DO NOTHING`. -/
def db_insert_ratings (db : DB) (rows : List RatingsRow) : DB :=
  { db with ratings := rows.foldl insertRatingsRow db.ratings }

def moviesHasKey (tbl : List MoviesRow) (m : String) : Bool :=
  tbl.any (fun r => r.movie_id == m)

/-- An incoming value row of `database.insert_movies`. -/
structure MovieInput where
  movie_id : String
  title : Option String
  poster_link : Option String
  release_year : Option Int
  rating_amount : Int
deriving Repr, DecidableEq

/-- SQL `COALESCE(a, b)` on two nullable values. -/
def coalesce {α : Type} : Option α → Option α → Option α
  | some a, _ => some a
  | none, b => b

/-- One value row of `database.insert_movies`'s upsert:
`ON CONFLICT (movie_id) DO UPDATE SET rating_amount = movies.rating_amount +
EXCLUDED.rating_amount, title = COALESCE(EXCLUDED.title, movies.title), ...`. -/
def upsertMovieRow (tbl : List MoviesRow) (inc : MovieInput) : List MoviesRow :=
  if moviesHasKey tbl inc.movie_id then
    tbl.map (fun old =>
      if old.movie_id == inc.movie_id then
        { movie_id := old.movie_id
          title := coalesce inc.title old.title
          poster_link := coalesce inc.poster_link old.poster_link
          release_year := coalesce inc.release_year old.release_year
          rating_amount := old.rating_amount + inc.rating_amount }
      else old)
  else
    tbl ++ [⟨inc.movie_id, inc.title, inc.poster_link, inc.release_year,
             inc.rating_amount⟩]

/-- `database.insert_movies`: bulk upsert of full movie rows. -/
def db_insert_movies (db : DB) (rows : List MovieInput) : DB :=
  { db with movies := rows.foldl upsertMovieRow db.movies }

/-- One value row of `database.prefill_movies`'s
`INSERT INTO MOVIES (movie_id) VALUES %s ON CONFLICT (movie_id) DO NOTHING`.
Modelled from the spec: the defaults of the unspecified columns are not in the
repository's sources; spec §3 gives nullable descriptive fields (`none`) and
`ratingAmount` as a counter, so a fresh placeholder row starts at 0. -/
def prefillMovieRow (tbl : List MoviesRow) (m : String) : List MoviesRow :=
  if moviesHasKey tbl m then tbl else tbl ++ [⟨m, none, none, none, 0⟩]

/-- `database.prefill_movies`: bulk insert of bare `movie_id` placeholders. -/
def db_prefill_movies (db : DB) (slugs : List String) : DB :=
  { db with movies := slugs.foldl prefillMovieRow db.movies }

/-- The table-level effect of `database.upsert_user_pool`:
`ON CONFLICT (user_id) DO UPDATE SET username = EXCLUDED.username,
last_page_scraped = EXCLUDED.last_page_scraped`. -/
def upsertUserPoolTable (tbl : List UserPoolRow) (u : String)
    (name : Option String) (lp : Nat) : List UserPoolRow :=
  if tbl.any (fun r => r.user_id == u) then
    tbl.map (fun r => if r.user_id == u then ⟨r.user_id, name, lp⟩ else r)
  else
    tbl ++ [⟨u, name, lp⟩]

/-- `database.upsert_user_pool`. -/
def db_upsert_user_pool (db : DB) (u : String) (name : Option String)
    (lp : Nat) : DB :=
  { db with user_pool := upsertUserPoolTable db.user_pool u name lp }

/-- Python truthiness applied to a scraped rating, as in
`ingestRatings.insert_ratings`'s
`rating = float(f["rating"]) if f.get("rating") else None`:
both `None` and `0` are falsy and collapse to `None`. -/
def truthyRating : Option Nat → Option Nat
  | none => none
  | some n => if n = 0 then none else some n

/-- The `rating_rows` list prepared by `ingestRatings.insert_ratings`:
`(username, rating, liked, slug)` for every film with a truthy rating. -/
def ratingRowsOf (username : String) (films : List Film) : List RatingsRow :=
  films.filterMap (fun f =>
    (truthyRating f.rating).map (fun r => ⟨username, r, f.liked, f.slug⟩))

/-- The `movies_row` list prepared by `ingestRatings.insert_ratings`: the
slug of every film with a truthy rating (the `movies_row.append` sits inside
the `if rating is not None` branch). -/
def moviesRowOf (films : List Film) : List String :=
  films.filterMap (fun f =>
    (truthyRating f.rating).map (fun _ => f.slug))

/-- Python `films[-1]`: the last element, or an `IndexError` on `[]`. -/
def lastFilm? : List Film → Option Film
  | [] => none
  | [f] => some f
  | _ :: f :: rest => lastFilm? (f :: rest)

/-- Which of the three store round trips raise a `DatabaseError` during one
account's ingestion (abstracting constraint violations or connection loss). -/
structure OpFailures where
  ratingsFails : Bool
  userPoolFails : Bool
  prefillFails : Bool
deriving Repr, DecidableEq

def noFailures : OpFailures := ⟨false, false, false⟩

/-- `ingestRatings.insert_ratings` for one account: prepare `rating_rows` and
`movies_row`, read `films[-1]` (raising `IndexError` on an empty scrape —
this happens before any store call), then run the three store operations in
order, each inside its own `try/except DatabaseError` (a failing operation
leaves the store untouched, logs, and the next operation still runs).  The
returned log has one line per store operation attempted. -/
def ingest_ratings (fl : OpFailures) (username : String) (films : List Film)
    (db : DB) : Except String (DB × List String) :=
  let rating_rows := ratingRowsOf username films
  let movies_row := moviesRowOf films
  match lastFilm? films with
  | none => Except.error "IndexError: list index out of range"
  | some last =>
    let step1 : DB × List String :=
      if fl.ratingsFails then (db, ["[DB ERROR] Failed to insert ratings"])
      else (db_insert_ratings db rating_rows, ["Inserted ratings"])
    let step2 : DB × List String :=
      if fl.userPoolFails then
        (step1.1, step1.2 ++ ["[DB ERROR] Failed to upsert user_pool"])
      else
        (db_upsert_user_pool step1.1 username last.display_name last.page,
         step1.2 ++ ["Upserted user_pool"])
    let step3 : DB × List String :=
      if fl.prefillFails then
        (step2.1, step2.2 ++ ["[DB ERROR] Failed to insert movies"])
      else
        (db_prefill_movies step2.1 movies_row,
         step2.2 ++ ["Inserted movies"])
    Except.ok step3

/-- One account of a batch run: its username, the outcome of
`fetch_rating_info` (`Except.error` models an exception raised while
scraping, e.g. a timeout on the first page), and which store operations
would fail for it. -/
structure AccountJob where
  username : String
  scrape : Except String (List Film)
  failures : OpFailures
deriving Repr

/-- `ingestRatings.main` for one account: a scrape exception propagates
uncaught; otherwise ingest the scraped films. -/
def ingest_main (job : AccountJob) (db : DB) :
    Except String (DB × List String) :=
  match job.scrape with
  | Except.error e => Except.error e
  | Except.ok films => ingest_ratings job.failures job.username films db

/-- `buildMovieDatabase.build_database`: a bare `for userId in userList`
loop with no exception handling — an exception from `ingest_main` propagates
and stops the run.  Returns the store, the usernames whose ingestion
completed, and the uncaught exception if one occurred. -/
def build_database (jobs : List AccountJob) (db : DB) :
    DB × List String × Option String :=
  match jobs with
  | [] => (db, [], none)
  | job :: rest =>
    match ingest_main job db with
    | Except.error e => (db, [], some e)
    | Except.ok (db1, _) =>
      let r := build_database rest db1
      (r.1, job.username :: r.2.1, r.2.2)

/-- Projection: the `movies` table of a completed ingestion run. -/
def resultMovies (r : Except String (DB × List String)) :
    Option (List MoviesRow) :=
  match r with
  | Except.ok (db, _) => some db.movies
  | Except.error _ => none

/-- Projection: the `ratings` table of a completed ingestion run. -/
def resultRatings (r : Except String (DB × List String)) :
    Option (List RatingsRow) :=
  match r with
  | Except.ok (db, _) => some db.ratings
  | Except.error _ => none

/-- Projection: the `user_pool` table of a completed ingestion run. -/
def resultUserPool (r : Except String (DB × List String)) :
    Option (List UserPoolRow) :=
  match r with
  | Except.ok (db, _) => some db.user_pool
  | Except.error _ => none

lemma star_beq_half : ('★' == '½') = false := by decide

lemma half_beq_star : ('½' == '★') = false := by decide

/-- Every film produced by the per-item parser has no year and no poster. -/
lemma parseItem_fields (dn : Option String) (p : Nat) (li : RawItem) (f : Film)
    (h : parseItem dn p li = some f) : f.year = none ∧ f.poster_url = none := by
  simp only [parseItem] at h
  split at h
  · exact absurd h (by simp)
  · split at h
    · exact absurd h (by simp)
    · injection h with h
      rw [← h]
      exact ⟨rfl, rfl⟩

/-- Every film accumulated by the page loop is either already in the
accumulator or was produced by the per-item parser. -/
lemma pageLoop_mem (dn : Option String) (site : Nat → PageResult) :
    ∀ (fuel page : Nat) (acc : List Film) (f : Film),
      f ∈ pageLoop dn site fuel page acc →
      f ∈ acc ∨ (f.year = none ∧ f.poster_url = none) := by
  intro fuel
  induction fuel with
  | zero =>
    intro page acc f hf
    simp only [pageLoop] at hf
    exact Or.inl hf
  | succ n ih =>
    intro page acc f hf
    simp only [pageLoop] at hf
    split at hf
    · exact Or.inl hf
    · exact Or.inl hf
    · split at hf
      · exact Or.inl hf
      · rcases ih _ _ _ hf with hmem | hres
        · rcases List.mem_append.mp hmem with h1 | h2
          · exact Or.inl h1
          · rcases List.mem_filterMap.mp h2 with ⟨li, _, hp⟩
            exact Or.inr (parseItem_fields _ _ _ _ hp)
        · exact Or.inr hres

/-- C10: every record returned by the active scraper `fetch_rating_info` has
`year = None` and `poster_url = None`, for every input: the detail-page
enrichment pass is an inert string literal in `readRatings.py` and never
runs, so release years are never resolved on this path. -/
theorem C10_fetch_always_year_poster_none (dn : Option String)
    (site : Nat → PageResult) (f : Film)
    (hf : f ∈ fetch_rating_info dn site) :
    f.year = none ∧ f.poster_url = none := by
  rcases pageLoop_mem dn site maxPages 1 [] f hf with h | h
  · exact absurd h (by simp)
  · exact h

/-- A site whose first listing page has one rated, liked item and whose
second page has no grid container. -/
def exSite : Nat → PageResult := fun n =>
  if n = 1 then
    PageResult.grid
      [⟨some ⟨"mv-1", some "Movie One"⟩,
        some ⟨some ['★', '★', '★', '½'], some ["like", "liked-micro"]⟩⟩]
  else PageResult.noGrid

/-- The film `exSite` yields: rating 3½ stars decodes to 7, liked is true. -/
def exFilm : Film :=
  ⟨"mv-1", some "Movie One", none, some "Name", some 7, true, none, 1⟩

/-- Witness for C10 at the concrete site `exSite`. -/
theorem C10_witness : exFilm.year = none ∧ exFilm.poster_url = none :=
  C10_fetch_always_year_poster_none (some "Name") exSite exFilm (by decide)

/-- C2 counterexample: the active decoder applies no cap — six full-mark
glyphs decode to 12, which is outside 0..10, contradicting the claimed
clamp to at most 5 honored full marks. -/
theorem C2_counterexample :
    stars_to_score (List.replicate 6 '★') = some 12 ∧ 10 < 12 := by
  constructor
  · decide
  · decide

/-- C2 amended: for a token of `f` full-mark glyphs followed by `h` half-mark
glyphs, the active decoder returns `None` when the token is empty and
`2*f + h` otherwise, with no clamping of either count (so malformed tokens
with more than 5 full marks score above 10). -/
theorem C2_stars_to_score_unclamped (f h : Nat) :
    stars_to_score (List.replicate f '★' ++ List.replicate h '½') =
      if f = 0 ∧ h = 0 then none else some (f * 2 + h) := by
  by_cases hf : f = 0
  · by_cases hh : h = 0
    · simp [stars_to_score, hf, hh]
    · simp [stars_to_score, hf, hh, List.count_replicate, half_beq_star,
        star_beq_half]
  · by_cases hh : h = 0
    · simp [stars_to_score, hf, hh, List.count_replicate, half_beq_star,
        star_beq_half]
    · simp [stars_to_score, hf, hh, List.count_append, List.count_replicate,
        half_beq_star, star_beq_half]

lemma ratingsHasKey_insert (tbl : List RatingsRow) (r : RatingsRow)
    (u m : String) (h : ratingsHasKey tbl u m = true) :
    ratingsHasKey (insertRatingsRow tbl r) u m = true := by
  unfold insertRatingsRow
  split
  · exact h
  · unfold ratingsHasKey at h ⊢
    simp [List.any_append, h]

lemma ratingsHasKey_fold (rows : List RatingsRow) :
    ∀ (tbl : List RatingsRow) (u m : String),
      ratingsHasKey tbl u m = true →
      ratingsHasKey (rows.foldl insertRatingsRow tbl) u m = true := by
  induction rows with
  | nil => intro tbl u m h; simpa using h
  | cons r rest ih =>
    intro tbl u m h
    simp only [List.foldl_cons]
    exact ih _ _ _ (ratingsHasKey_insert tbl r u m h)

lemma ratingsHasKey_insert_self (tbl : List RatingsRow) (r : RatingsRow) :
    ratingsHasKey (insertRatingsRow tbl r) r.user_id r.movie_id = true := by
  unfold insertRatingsRow
  split
  · next h => exact h
  · unfold ratingsHasKey
    simp [List.any_append]

lemma ratingsHasKey_mem_fold (rows : List RatingsRow) :
    ∀ (tbl : List RatingsRow) (r : RatingsRow), r ∈ rows →
      ratingsHasKey (rows.foldl insertRatingsRow tbl) r.user_id r.movie_id
        = true := by
  induction rows with
  | nil => intro tbl r h; cases h
  | cons a rest ih =>
    intro tbl r h
    simp only [List.foldl_cons]
    rcases List.mem_cons.mp h with rfl | hr
    · exact ratingsHasKey_fold rest _ _ _ (ratingsHasKey_insert_self tbl r)
    · exact ih _ _ hr

lemma fold_insertRatings_noop (rows : List RatingsRow) :
    ∀ (tbl : List RatingsRow),
      (∀ r ∈ rows, ratingsHasKey tbl r.user_id r.movie_id = true) →
      rows.foldl insertRatingsRow tbl = tbl := by
  induction rows with
  | nil => intro tbl _; rfl
  | cons a rest ih =>
    intro tbl h
    have ha : insertRatingsRow tbl a = tbl := by
      unfold insertRatingsRow
      simp [h a (List.mem_cons_self a rest)]
    simp only [List.foldl_cons, ha]
    exact ih tbl (fun r hr => h r (List.mem_cons_of_mem a hr))

lemma mem_fold_insertRatings (rows : List RatingsRow) :
    ∀ (tbl : List RatingsRow) (x : RatingsRow),
      x ∈ rows.foldl insertRatingsRow tbl → x ∈ tbl ∨ x ∈ rows := by
  induction rows with
  | nil => intro tbl x h; exact Or.inl (by simpa using h)
  | cons a rest ih =>
    intro tbl x h
    simp only [List.foldl_cons] at h
    rcases ih _ _ h with hx | hx
    · unfold insertRatingsRow at hx
      split at hx
      · exact Or.inl hx
      · rcases List.mem_append.mp hx with h1 | h2
        · exact Or.inl h1
        · have hxa : x = a := List.mem_singleton.mp h2
          exact Or.inr (by rw [hxa]; exact List.mem_cons_self a rest)
    · exact Or.inr (List.mem_cons_of_mem a hx)

lemma moviesHasKey_prefill (tbl : List MoviesRow) (m s : String)
    (h : moviesHasKey tbl s = true) :
    moviesHasKey (prefillMovieRow tbl m) s = true := by
  unfold prefillMovieRow
  split
  · exact h
  · unfold moviesHasKey at h ⊢
    simp [List.any_append, h]

lemma moviesHasKey_prefill_fold (slugs : List String) :
    ∀ (tbl : List MoviesRow) (s : String),
      moviesHasKey tbl s = true →
      moviesHasKey (slugs.foldl prefillMovieRow tbl) s = true := by
  induction slugs with
  | nil => intro tbl s h; simpa using h
  | cons m rest ih =>
    intro tbl s h
    simp only [List.foldl_cons]
    exact ih _ _ (moviesHasKey_prefill tbl m s h)

lemma moviesHasKey_prefill_self (tbl : List MoviesRow) (m : String) :
    moviesHasKey (prefillMovieRow tbl m) m = true := by
  unfold prefillMovieRow
  split
  · next h => exact h
  · unfold moviesHasKey
    simp [List.any_append]

lemma moviesHasKey_mem_prefill_fold (slugs : List String) :
    ∀ (tbl : List MoviesRow) (s : String), s ∈ slugs →
      moviesHasKey (slugs.foldl prefillMovieRow tbl) s = true := by
  induction slugs with
  | nil => intro tbl s h; cases h
  | cons m rest ih =>
    intro tbl s h
    simp only [List.foldl_cons]
    rcases List.mem_cons.mp h with rfl | hs
    · exact moviesHasKey_prefill_fold rest _ _ (moviesHasKey_prefill_self tbl s)
    · exact ih _ _ hs

lemma fold_prefill_noop (slugs : List String) :
    ∀ (tbl : List MoviesRow),
      (∀ s ∈ slugs, moviesHasKey tbl s = true) →
      slugs.foldl prefillMovieRow tbl = tbl := by
  induction slugs with
  | nil => intro tbl _; rfl
  | cons m rest ih =>
    intro tbl h
    have hm : prefillMovieRow tbl m = tbl := by
      unfold prefillMovieRow
      simp [h m (List.mem_cons_self m rest)]
    simp only [List.foldl_cons, hm]
    exact ih tbl (fun s hs => h s (List.mem_cons_of_mem m hs))

lemma any_map_userid (tbl : List UserPoolRow) (u : String)
    (name : Option String) (lp : Nat) :
    (tbl.map (fun r =>
        if r.user_id == u then (⟨r.user_id, name, lp⟩ : UserPoolRow) else r)).any
        (fun r => r.user_id == u)
      = tbl.any (fun r => r.user_id == u) := by
  induction tbl with
  | nil => rfl
  | cons a rest ih =>
    simp only [List.map_cons, List.any_cons, ih]
    by_cases ha : (a.user_id == u) = true
    · simp [ha]
    · simp only [Bool.not_eq_true] at ha
      simp [ha]

lemma upsertUserPool_any (tbl : List UserPoolRow) (u : String)
    (name : Option String) (lp : Nat) :
    (upsertUserPoolTable tbl u name lp).any (fun r => r.user_id == u)
      = true := by
  unfold upsertUserPoolTable
  split
  · next h => rw [any_map_userid]; exact h
  · simp [List.any_append]

lemma map_upRow_of_no_match (tbl : List UserPoolRow) (u : String)
    (name : Option String) (lp : Nat)
    (h : ∀ r ∈ tbl, (r.user_id == u) = false) :
    tbl.map (fun r =>
        if r.user_id == u then (⟨r.user_id, name, lp⟩ : UserPoolRow) else r)
      = tbl := by
  induction tbl with
  | nil => rfl
  | cons a rest ih =>
    simp only [List.map_cons]
    rw [ih (fun r hr => h r (List.mem_cons_of_mem a hr))]
    simp [h a (List.mem_cons_self a rest)]

lemma map_upRow_idem (tbl : List UserPoolRow) (u : String)
    (name : Option String) (lp : Nat) :
    ((tbl.map (fun r =>
        if r.user_id == u then (⟨r.user_id, name, lp⟩ : UserPoolRow) else r)).map
      (fun r =>
        if r.user_id == u then (⟨r.user_id, name, lp⟩ : UserPoolRow) else r))
      = tbl.map (fun r =>
          if r.user_id == u then (⟨r.user_id, name, lp⟩ : UserPoolRow) else r) := by
  induction tbl with
  | nil => rfl
  | cons a rest ih =>
    simp only [List.map_cons, ih]
    by_cases ha : (a.user_id == u) = true
    · simp [ha]
    · simp only [Bool.not_eq_true] at ha
      simp [ha]

lemma upsertUserPool_idem (tbl : List UserPoolRow) (u : String)
    (name : Option String) (lp : Nat) :
    upsertUserPoolTable (upsertUserPoolTable tbl u name lp) u name lp
      = upsertUserPoolTable tbl u name lp := by
  have hany := upsertUserPool_any tbl u name lp
  conv_lhs => rw [upsertUserPoolTable]
  rw [if_pos hany]
  unfold upsertUserPoolTable
  split
  · next h => exact map_upRow_idem tbl u name lp
  · next h =>
    rw [List.map_append, map_upRow_of_no_match]
    · simp
    · intro r hr
      rcases Bool.eq_false_or_eq_true (r.user_id == u) with ht | hf
      · exact absurd (List.any_eq_true.mpr ⟨r, hr, ht⟩) h
      · exact hf

lemma lastFilm?_of_ne_nil : ∀ (l : List Film), l ≠ [] →
    ∃ f, lastFilm? l = some f := by
  intro l
  induction l with
  | nil => intro h; exact absurd rfl h
  | cons a rest ih =>
    intro _
    cases rest with
    | nil => exact ⟨a, rfl⟩
    | cons b t =>
      rcases ih (by simp) with ⟨f, hf⟩
      exact ⟨f, by simpa [lastFilm?] using hf⟩

/-- The effect of the first store operation (ratings insert), as executed
under its `try/except`. -/
def ingestStep1 (fl : OpFailures) (u : String) (films : List Film)
    (db : DB) : DB :=
  if fl.ratingsFails then db
  else db_insert_ratings db (ratingRowsOf u films)

/-- The effect of the second store operation (bookmark upsert). -/
def ingestStep2 (fl : OpFailures) (u : String) (last : Film) (db : DB) : DB :=
  if fl.userPoolFails then db
  else db_upsert_user_pool db u last.display_name last.page

/-- The effect of the third store operation (movies prefill). -/
def ingestStep3 (fl : OpFailures) (films : List Film) (db : DB) : DB :=
  if fl.prefillFails then db
  else db_prefill_movies db (moviesRowOf films)

/-- The per-operation log lines of one account's ingestion. -/
def ingestLog (fl : OpFailures) : List String :=
  [if fl.ratingsFails then "[DB ERROR] Failed to insert ratings"
   else "Inserted ratings",
   if fl.userPoolFails then "[DB ERROR] Failed to upsert user_pool"
   else "Upserted user_pool",
   if fl.prefillFails then "[DB ERROR] Failed to insert movies"
   else "Inserted movies"]

/-- On a non-empty scrape, ingestion always completes and is the sequential
composition of the three independently-guarded store operations. -/
lemma ingest_ratings_ok_eq (fl : OpFailures) (u : String) (films : List Film)
    (db : DB) (last : Film) (h : lastFilm? films = some last) :
    ingest_ratings fl u films db =
      Except.ok
        (ingestStep3 fl films
          (ingestStep2 fl u last (ingestStep1 fl u films db)),
         ingestLog fl) := by
  obtain ⟨rf, uf, pf⟩ := fl
  cases rf <;> cases uf <;> cases pf <;>
    simp [ingest_ratings, h, ingestStep1, ingestStep2, ingestStep3, ingestLog]

/-- On the no-failure path the resulting store, componentwise. -/
lemma steps_noFail_components (u : String) (films : List Film) (last : Film)
    (db : DB) :
    ingestStep3 noFailures films
        (ingestStep2 noFailures u last (ingestStep1 noFailures u films db)) =
      ⟨(ratingRowsOf u films).foldl insertRatingsRow db.ratings,
       (moviesRowOf films).foldl prefillMovieRow db.movies,
       upsertUserPoolTable db.user_pool u last.display_name last.page⟩ := rfl

lemma slug_mem_moviesRowOf (films : List Film) (f : Film) (r : Nat)
    (hf : f ∈ films) (hr : truthyRating f.rating = some r) :
    f.slug ∈ moviesRowOf films := by
  unfold moviesRowOf
  exact List.mem_filterMap.mpr ⟨f, hf, by rw [hr]; rfl⟩

lemma row_mem_ratingRowsOf (u : String) (films : List Film) (f : Film)
    (r : Nat) (hf : f ∈ films) (hr : truthyRating f.rating = some r) :
    (⟨u, r, f.liked, f.slug⟩ : RatingsRow) ∈ ratingRowsOf u films := by
  unfold ratingRowsOf
  exact List.mem_filterMap.mpr ⟨f, hf, by rw [hr]; rfl⟩

lemma mem_ratingRowsOf (u : String) (films : List Film) (x : RatingsRow)
    (hx : x ∈ ratingRowsOf u films) :
    ∃ f ∈ films, truthyRating f.rating = some x.rating ∧
      x.user_id = u ∧ x.movie_id = f.slug ∧ x.liked = f.liked := by
  unfold ratingRowsOf at hx
  rcases List.mem_filterMap.mp hx with ⟨f, hf, heq⟩
  rcases Option.map_eq_some'.mp heq with ⟨r, hrt, hgx⟩
  refine ⟨f, hf, ?_, ?_, ?_, ?_⟩
  · rw [← hgx]; exact hrt
  · rw [← hgx]
  · rw [← hgx]
  · rw [← hgx]

/-- C1: for every account and fixed scraped result, running the full
ingestion a second time returns the very same store — hence the `ratings`
table has the same row count as after one run, and no `movies` row's
`rating_amount` changes from re-ingested duplicates of the same account's
same slug-rating pairs. -/
theorem C1_reingestion_idempotent (u : String) (films : List Film)
    (db db1 : DB) (log1 : List String)
    (h : ingest_ratings noFailures u films db = Except.ok (db1, log1)) :
    ingest_ratings noFailures u films db1 = Except.ok (db1, log1) ∧
      (resultRatings (ingest_ratings noFailures u films db1)).map List.length
        = some db1.ratings.length ∧
      resultMovies (ingest_ratings noFailures u films db1)
        = some db1.movies := by
  cases hl : lastFilm? films with
  | none => simp [ingest_ratings, hl] at h
  | some last =>
    rw [ingest_ratings_ok_eq noFailures u films db last hl,
        steps_noFail_components] at h
    injection h with h2
    injection h2 with hdb hlog
    subst hdb
    subst hlog
    have hrun :
        ingest_ratings noFailures u films
            (⟨(ratingRowsOf u films).foldl insertRatingsRow db.ratings,
              (moviesRowOf films).foldl prefillMovieRow db.movies,
              upsertUserPoolTable db.user_pool u last.display_name
                last.page⟩ : DB)
          = Except.ok
            ((⟨(ratingRowsOf u films).foldl insertRatingsRow db.ratings,
               (moviesRowOf films).foldl prefillMovieRow db.movies,
               upsertUserPoolTable db.user_pool u last.display_name
                 last.page⟩ : DB),
             ingestLog noFailures) := by
      rw [ingest_ratings_ok_eq noFailures u films _ last hl,
          steps_noFail_components]
      have e1 : (ratingRowsOf u films).foldl insertRatingsRow
            ((ratingRowsOf u films).foldl insertRatingsRow db.ratings)
          = (ratingRowsOf u films).foldl insertRatingsRow db.ratings :=
        fold_insertRatings_noop _ _
          (fun r hr => ratingsHasKey_mem_fold _ db.ratings r hr)
      have e2 : (moviesRowOf films).foldl prefillMovieRow
            ((moviesRowOf films).foldl prefillMovieRow db.movies)
          = (moviesRowOf films).foldl prefillMovieRow db.movies :=
        fold_prefill_noop _ _
          (fun s hs => moviesHasKey_mem_prefill_fold _ db.movies s hs)
      have e3 := upsertUserPool_idem db.user_pool u last.display_name
        last.page
      show Except.ok
          ((⟨(ratingRowsOf u films).foldl insertRatingsRow
               ((ratingRowsOf u films).foldl insertRatingsRow db.ratings),
             (moviesRowOf films).foldl prefillMovieRow
               ((moviesRowOf films).foldl prefillMovieRow db.movies),
             upsertUserPoolTable
               (upsertUserPoolTable db.user_pool u last.display_name
                 last.page) u last.display_name last.page⟩ : DB),
           ingestLog noFailures) = _
      rw [e1, e2, e3]
    refine ⟨hrun, ?_, ?_⟩
    · rw [hrun]; rfl
    · rw [hrun]; rfl

/-- Concrete store state after ingesting `exFilm` for account `alice` into
an empty store. -/
def db1c : DB :=
  ⟨[⟨"alice", 7, true, "mv-1"⟩], [⟨"mv-1", none, none, none, 0⟩],
   [⟨"alice", some "Name", 1⟩]⟩

/-- Witness for C1 at a concrete one-film ingestion. -/
theorem C1_witness :
    ingest_ratings noFailures "alice" [exFilm] db1c
        = Except.ok
            (db1c,
             ["Inserted ratings", "Upserted user_pool", "Inserted movies"]) ∧
      (resultRatings
          (ingest_ratings noFailures "alice" [exFilm] db1c)).map List.length
        = some db1c.ratings.length ∧
      resultMovies (ingest_ratings noFailures "alice" [exFilm] db1c)
        = some db1c.movies :=
  C1_reingestion_idempotent "alice" [exFilm] emptyDB db1c
    ["Inserted ratings", "Upserted user_pool", "Inserted movies"] (by rfl)

/-- A scraped item with no rating at all. -/
def unratedFilm : Film :=
  ⟨"mv-unrated", some "A Title", none, some "Name", none, false, none, 1⟩

/-- A scraped item whose decoded rating is 0 (truthiness drops it). -/
def zeroRatedFilm : Film :=
  ⟨"mv-zero", some "Zero", none, some "Name", some 0, true, none, 1⟩

/-- C5 counterexample: ingesting a single unrated item completes (the
bookmark row is written), yet the movies catalogue stays empty — the
unrated item's slug is never persisted as a placeholder, because
`movies_row.append((slug,))` sits inside the `if rating is not None`
branch of `ingestRatings.insert_ratings`. -/
theorem C5_counterexample :
    resultMovies (ingest_ratings noFailures "bob" [unratedFilm] emptyDB)
        = some [] ∧
      resultUserPool (ingest_ratings noFailures "bob" [unratedFilm] emptyDB)
        = some [⟨"bob", some "Name", 1⟩] :=
  ⟨rfl, rfl⟩

/-- C5 amended: ingestion ensures a movies catalogue row keyed by the item's
slug only for items with a truthy (non-`None`, non-zero) rating; unrated
items are not persisted to the catalogue at all. -/
theorem C5_rated_items_prefilled (u : String) (films : List Film)
    (db db' : DB) (log : List String)
    (h : ingest_ratings noFailures u films db = Except.ok (db', log))
    (f : Film) (hf : f ∈ films) (hr : truthyRating f.rating ≠ none) :
    moviesHasKey db'.movies f.slug = true := by
  cases hl : lastFilm? films with
  | none => simp [ingest_ratings, hl] at h
  | some last =>
    rw [ingest_ratings_ok_eq noFailures u films db last hl,
        steps_noFail_components] at h
    injection h with h2
    injection h2 with hdb hlog
    subst hdb
    cases ht : truthyRating f.rating with
    | none => exact absurd ht hr
    | some r =>
      exact moviesHasKey_mem_prefill_fold _ db.movies _
        (slug_mem_moviesRowOf films f r hf ht)

/-- Witness for C5 at a concrete rated item. -/
theorem C5_witness :
    moviesHasKey [⟨"mv-1", none, none, none, 0⟩] "mv-1" = true :=
  C5_rated_items_prefilled "carol" [exFilm] emptyDB
    ⟨[⟨"carol", 7, true, "mv-1"⟩], [⟨"mv-1", none, none, none, 0⟩],
     [⟨"carol", some "Name", 1⟩]⟩
    ["Inserted ratings", "Upserted user_pool", "Inserted movies"]
    (by rfl) exFilm (List.mem_cons_self exFilm []) (by decide)

/-- C6 counterexample: an item whose decoded rating equals 0 produces no
`ratings` row (ingestion still completes and writes the bookmark):
`float(f["rating"]) if f.get("rating") else None` treats the rating 0 as
falsy, contradicting "every item whose rating is not None yields a row,
including items whose decoded rating equals 0". -/
theorem C6_counterexample :
    resultRatings (ingest_ratings noFailures "dave" [zeroRatedFilm] emptyDB)
        = some [] ∧
      resultUserPool
          (ingest_ratings noFailures "dave" [zeroRatedFilm] emptyDB)
        = some [⟨"dave", some "Name", 1⟩] :=
  ⟨rfl, rfl⟩

/-- C6 amended: ingestion inserts an `(accountId, rating, liked, slug)` row
for exactly the scraped items whose rating is truthy (neither `None` nor 0):
every truthy item ends with a matching-key row in the table, and every row
is either pre-existing or comes from some truthy item; items with rating
`None` — and, by Python truthiness, also rating 0 — are never persisted. -/
theorem C6_ratings_rows_exactly_truthy (u : String) (films : List Film)
    (db db' : DB) (log : List String)
    (h : ingest_ratings noFailures u films db = Except.ok (db', log)) :
    (∀ f ∈ films, ∀ r, truthyRating f.rating = some r →
        ratingsHasKey db'.ratings u f.slug = true) ∧
      (∀ x ∈ db'.ratings, x ∈ db.ratings ∨
        ∃ f ∈ films, truthyRating f.rating = some x.rating ∧
          x.user_id = u ∧ x.movie_id = f.slug ∧ x.liked = f.liked) := by
  cases hl : lastFilm? films with
  | none => simp [ingest_ratings, hl] at h
  | some last =>
    rw [ingest_ratings_ok_eq noFailures u films db last hl,
        steps_noFail_components] at h
    injection h with h2
    injection h2 with hdb hlog
    subst hdb
    constructor
    · intro f hf r ht
      exact ratingsHasKey_mem_fold (ratingRowsOf u films) db.ratings
        ⟨u, r, f.liked, f.slug⟩ (row_mem_ratingRowsOf u films f r hf ht)
    · intro x hx
      rcases mem_fold_insertRatings (ratingRowsOf u films) db.ratings x hx
        with h1 | h2
      · exact Or.inl h1
      · exact Or.inr (mem_ratingRowsOf u films x h2)

/-- Witness for C6 at a concrete one-film ingestion. -/
theorem C6_witness :
    (∀ f ∈ [exFilm], ∀ r, truthyRating f.rating = some r →
        ratingsHasKey [⟨"erin", 7, true, "mv-1"⟩] "erin" f.slug = true) ∧
      (∀ x ∈ [(⟨"erin", 7, true, "mv-1"⟩ : RatingsRow)],
        x ∈ ([] : List RatingsRow) ∨
        ∃ f ∈ [exFilm], truthyRating f.rating = some x.rating ∧
          x.user_id = "erin" ∧ x.movie_id = f.slug ∧ x.liked = f.liked) :=
  C6_ratings_rows_exactly_truthy "erin" [exFilm] emptyDB
    ⟨[⟨"erin", 7, true, "mv-1"⟩], [⟨"mv-1", none, none, none, 0⟩],
     [⟨"erin", some "Name", 1⟩]⟩
    ["Inserted ratings", "Upserted user_pool", "Inserted movies"] (by rfl)

lemma ingestStep3_user_pool (fl : OpFailures) (films : List Film) (x : DB) :
    (ingestStep3 fl films x).user_pool = x.user_pool := by
  unfold ingestStep3 db_prefill_movies
  cases fl.prefillFails <;> simp

/-- C8: within one account's ingestion, for every pattern of `DatabaseError`
failures among the three store operations, ingestion of a non-empty scrape
still completes with one log line per operation (all three are attempted),
and the effects of the non-failing operations are present — e.g. even when
an earlier operation failed, the bookmark row exists and every truthy-rated
slug has a catalogue row. -/
theorem C8_store_ops_wrapped_independently (fl : OpFailures) (u : String)
    (films : List Film) (db : DB) (hne : films ≠ []) :
    ∃ db' log, ingest_ratings fl u films db = Except.ok (db', log) ∧
      log.length = 3 ∧
      (fl.userPoolFails = false →
        db'.user_pool.any (fun r => r.user_id == u) = true) ∧
      (fl.prefillFails = false →
        ∀ f ∈ films, truthyRating f.rating ≠ none →
          moviesHasKey db'.movies f.slug = true) := by
  rcases lastFilm?_of_ne_nil films hne with ⟨last, hl⟩
  refine ⟨_, _, ingest_ratings_ok_eq fl u films db last hl, ?_, ?_, ?_⟩
  · rfl
  · intro huf
    rw [ingestStep3_user_pool]
    unfold ingestStep2
    rw [huf]
    simp only [if_false, Bool.false_eq_true]
    exact upsertUserPool_any _ u last.display_name last.page
  · intro hpf f hf hr
    unfold ingestStep3
    rw [hpf]
    simp only [if_false, Bool.false_eq_true]
    cases ht : truthyRating f.rating with
    | none => exact absurd ht hr
    | some r =>
      exact moviesHasKey_mem_prefill_fold _ _ _
        (slug_mem_moviesRowOf films f r hf ht)

/-- Witness for C8: the ratings insert fails, the other two operations are
still attempted and applied. -/
theorem C8_witness :
    ∃ db' log,
      ingest_ratings ⟨true, false, false⟩ "frank" [exFilm] emptyDB
          = Except.ok (db', log) ∧
        log.length = 3 ∧
        ((true, false, false).2.1 = false →
          db'.user_pool.any (fun r => r.user_id == "frank") = true) ∧
        ((true, false, false).2.2 = false →
          ∀ f ∈ [exFilm], truthyRating f.rating ≠ none →
            moviesHasKey db'.movies f.slug = true) :=
  C8_store_ops_wrapped_independently ⟨true, false, false⟩ "frank" [exFilm]
    emptyDB (by simp)

/-- A site whose pages 1–3 each contain one parseable rated item and whose
page 4 is empty (no grid container). -/
def site3 : Nat → PageResult := fun n =>
  if n ≤ 3 then
    PageResult.grid
      [⟨some ⟨"mv-p", some "Paged"⟩, some ⟨some ['★', '★'], none⟩⟩]
  else PageResult.noGrid

/-- C3: for a scrape where pages 1–3 have items and page 4 is empty, the
persisted `last_page_scraped` is 3 (second conjunct); but when the scrape
yields zero items, ingestion does not complete with `lastPageScraped = 0` —
`films[-1]` raises an `IndexError` before any store call (first conjunct),
contradicting the specified empty-scrape behaviour. -/
theorem C3_last_page_scraped :
    ingest_ratings noFailures "gina" [] emptyDB
        = Except.error "IndexError: list index out of range" ∧
      resultUserPool
          (ingest_ratings noFailures "gina"
            (fetch_rating_info (some "Gina") site3) emptyDB)
        = some [⟨"gina", some "Gina", 3⟩] :=
  ⟨rfl, rfl⟩

/-- A batch account whose scrape succeeds with one rated film. -/
def goodJob : AccountJob := ⟨"beth", Except.ok [exFilm], noFailures⟩

/-- A batch account whose scrape completes but yields zero items. -/
def emptyScrapeJob : AccountJob := ⟨"amy", Except.ok [], noFailures⟩

/-- C4 counterexample: in the batch `[amy, beth]`, amy's scrape yields zero
items, her ingestion raises an uncaught `IndexError`, and the bare loop in
`buildMovieDatabase.build_database` stops: beth is never processed (the
processed list is empty and the error propagates). -/
theorem C4_counterexample :
    build_database [emptyScrapeJob, goodJob] emptyDB
      = (emptyDB, [], some "IndexError: list index out of range") :=
  rfl

/-- C4 amended: `DatabaseError`s inside an account's three store operations
are contained (any failure pattern per account), so a batch in which every
account's scrape succeeds with at least one item processes all accounts in
order; but a scrape exception or a zero-item scrape raises out of
`ingest_main` and prevents the subsequent accounts from being processed. -/
theorem C4_db_errors_contained (jobs : List AccountJob) (db : DB)
    (h : ∀ j ∈ jobs, ∃ films, j.scrape = Except.ok films ∧ films ≠ []) :
    (build_database jobs db).2.1 = jobs.map (fun j => j.username) ∧
      (build_database jobs db).2.2 = none := by
  induction jobs generalizing db with
  | nil => exact ⟨rfl, rfl⟩
  | cons j rest ih =>
    rcases h j (List.mem_cons_self j rest) with ⟨films, hs, hne⟩
    rcases lastFilm?_of_ne_nil films hne with ⟨last, hl⟩
    have hok := ingest_ratings_ok_eq j.failures j.username films db last hl
    have hmain : ingest_main j db =
        Except.ok
          (ingestStep3 j.failures films
            (ingestStep2 j.failures j.username last
              (ingestStep1 j.failures j.username films db)),
           ingestLog j.failures) := by
      unfold ingest_main
      rw [hs]
      exact hok
    rcases ih _ (fun x hx => h x (List.mem_cons_of_mem j hx)) with ⟨h1, h2⟩
    unfold build_database
    rw [hmain]
    simp only [List.map_cons]
    exact ⟨by rw [h1], by rw [h2]⟩

/-- Witness for C4 at a concrete all-good batch. -/
theorem C4_witness :
    (build_database [goodJob] emptyDB).2.1 = ["beth"] ∧
      (build_database [goodJob] emptyDB).2.2 = none :=
  C4_db_errors_contained [goodJob] emptyDB
    (fun j hj => by
      rcases List.mem_singleton.mp hj with rfl
      exact ⟨[exFilm], rfl, by simp⟩)

/-- SQL row lookup by primary key in the `movies` table. -/
def findMovie (tbl : List MoviesRow) (m : String) : Option MoviesRow :=
  tbl.find? (fun r => r.movie_id == m)

lemma findMovie_cons_pos (a : MoviesRow) (t : List MoviesRow) (m : String)
    (h : (a.movie_id == m) = true) :
    findMovie (a :: t) m = some a := by
  unfold findMovie
  simp [List.find?_cons, h]

lemma findMovie_cons_neg (a : MoviesRow) (t : List MoviesRow) (m : String)
    (h : (a.movie_id == m) = false) :
    findMovie (a :: t) m = findMovie t m := by
  unfold findMovie
  simp [List.find?_cons, h]

lemma findMovie_map_upd_other (tbl : List MoviesRow) (b : MovieInput)
    (m : String) (hb : (b.movie_id == m) = false) :
    findMovie (tbl.map (fun old =>
        if old.movie_id == b.movie_id then
          ({ movie_id := old.movie_id
             title := coalesce b.title old.title
             poster_link := coalesce b.poster_link old.poster_link
             release_year := coalesce b.release_year old.release_year
             rating_amount := old.rating_amount + b.rating_amount } :
            MoviesRow)
        else old)) m
      = findMovie tbl m := by
  induction tbl with
  | nil => rfl
  | cons a t ih =>
    simp only [List.map_cons]
    by_cases pa : (a.movie_id == m) = true
    · have pab : (a.movie_id == b.movie_id) = false := by
        rcases Bool.eq_false_or_eq_true (a.movie_id == b.movie_id)
          with hT | hF
        · exfalso
          have h2 : a.movie_id = b.movie_id := eq_of_beq hT
          rw [← h2] at hb
          exact absurd pa (by simp [hb])
        · exact hF
      rw [if_neg (by simp [pab])]
      rw [findMovie_cons_pos a _ m pa, findMovie_cons_pos a t m pa]
    · simp only [Bool.not_eq_true] at pa
      have pga :
          ((if (a.movie_id == b.movie_id) = true then
              ({ movie_id := a.movie_id
                 title := coalesce b.title a.title
                 poster_link := coalesce b.poster_link a.poster_link
                 release_year := coalesce b.release_year a.release_year
                 rating_amount := a.rating_amount + b.rating_amount } :
                MoviesRow)
            else a).movie_id == m) = false := by
        split
        · exact pa
        · exact pa
      rw [findMovie_cons_neg _ _ m pga, findMovie_cons_neg a t m pa]
      exact ih

lemma findMovie_append_other (tbl : List MoviesRow) (row : MoviesRow)
    (m : String) (hrow : (row.movie_id == m) = false) :
    findMovie (tbl ++ [row]) m = findMovie tbl m := by
  induction tbl with
  | nil =>
    simp only [List.nil_append]
    rw [findMovie_cons_neg row [] m hrow]
  | cons a t ih =>
    simp only [List.cons_append]
    by_cases pa : (a.movie_id == m) = true
    · rw [findMovie_cons_pos a _ m pa, findMovie_cons_pos a t m pa]
    · simp only [Bool.not_eq_true] at pa
      rw [findMovie_cons_neg a _ m pa, findMovie_cons_neg a t m pa]
      exact ih

lemma findMovie_upsert_other (tbl : List MoviesRow) (b : MovieInput)
    (m : String) (hb : (b.movie_id == m) = false) :
    findMovie (upsertMovieRow tbl b) m = findMovie tbl m := by
  unfold upsertMovieRow
  split
  · exact findMovie_map_upd_other tbl b m hb
  · exact findMovie_append_other tbl _ m hb

lemma findMovie_fold_other (batch : List MovieInput) (m : String) :
    ∀ (tbl : List MoviesRow),
      (∀ b ∈ batch, (b.movie_id == m) = false) →
      findMovie (batch.foldl upsertMovieRow tbl) m = findMovie tbl m := by
  induction batch with
  | nil => intro tbl _; rfl
  | cons b rest ih =>
    intro tbl h
    simp only [List.foldl_cons]
    rw [ih _ (fun x hx => h x (List.mem_cons_of_mem b hx))]
    exact findMovie_upsert_other tbl b m (h b (List.mem_cons_self b rest))

lemma findMovie_upsert_match (tbl : List MoviesRow) (inc : MovieInput)
    (old : MoviesRow)
    (hold : findMovie tbl inc.movie_id = some old) :
    findMovie (upsertMovieRow tbl inc) inc.movie_id =
      some ⟨old.movie_id, coalesce inc.title old.title,
            coalesce inc.poster_link old.poster_link,
            coalesce inc.release_year old.release_year,
            old.rating_amount + inc.rating_amount⟩ := by
  have hkey : moviesHasKey tbl inc.movie_id = true := by
    have hold' := hold
    unfold findMovie at hold'
    have hp := List.find?_some hold'
    have hm := List.mem_of_find?_eq_some hold'
    unfold moviesHasKey
    exact List.any_eq_true.mpr ⟨old, hm, hp⟩
  unfold upsertMovieRow
  rw [if_pos hkey]
  clear hkey
  induction tbl with
  | nil => simp [findMovie] at hold
  | cons a t ih =>
    simp only [List.map_cons]
    by_cases pa : (a.movie_id == inc.movie_id) = true
    · rw [findMovie_cons_pos a t inc.movie_id pa] at hold
      injection hold with hao
      subst hao
      rw [if_pos pa]
      exact findMovie_cons_pos _ _ _ pa
    · simp only [Bool.not_eq_true] at pa
      rw [findMovie_cons_neg a t inc.movie_id pa] at hold
      rw [if_neg (by simp [pa]), findMovie_cons_neg a _ inc.movie_id pa]
      exact ih hold

lemma findMovie_fold_uniq (batch : List MovieInput) (inc : MovieInput)
    (old : MoviesRow) :
    ∀ (tbl : List MoviesRow), inc ∈ batch →
      batch.countP (fun x => x.movie_id == inc.movie_id) = 1 →
      findMovie tbl inc.movie_id = some old →
      findMovie (batch.foldl upsertMovieRow tbl) inc.movie_id =
        some ⟨old.movie_id, coalesce inc.title old.title,
              coalesce inc.poster_link old.poster_link,
              coalesce inc.release_year old.release_year,
              old.rating_amount + inc.rating_amount⟩ := by
  induction batch with
  | nil => intro tbl hmem; cases hmem
  | cons b rest ih =>
    intro tbl hmem huniq hold
    simp only [List.foldl_cons]
    by_cases hb : (b.movie_id == inc.movie_id) = true
    · have hcnt : rest.countP (fun x => x.movie_id == inc.movie_id) = 0 := by
        rw [List.countP_cons] at huniq
        simp only [hb, if_true] at huniq
        omega
      have hbi : inc = b := by
        rcases List.mem_cons.mp hmem with h' | h'
        · exact h'
        · exact absurd (beq_self_eq_true inc.movie_id)
            (List.countP_eq_zero.mp hcnt inc h')
      subst hbi
      have hrest : ∀ x ∈ rest, (x.movie_id == inc.movie_id) = false := by
        intro x hx
        rcases Bool.eq_false_or_eq_true (x.movie_id == inc.movie_id)
          with hT | hF
        · exact absurd hT (List.countP_eq_zero.mp hcnt x hx)
        · exact hF
      rw [findMovie_fold_other rest inc.movie_id _ hrest]
      exact findMovie_upsert_match tbl inc old hold
    · have hbf : (b.movie_id == inc.movie_id) = false := by
        rcases Bool.eq_false_or_eq_true (b.movie_id == inc.movie_id)
          with hT | hF
        · exact absurd hT hb
        · exact hF
      have hbi : inc ∈ rest := by
        rcases List.mem_cons.mp hmem with h' | h'
        · subst h'
          exact absurd (beq_self_eq_true inc.movie_id) hb
        · exact h'
      have hcnt' : rest.countP (fun x => x.movie_id == inc.movie_id) = 1 := by
        simp only [List.countP_cons, hbf] at huniq
        simpa using huniq
      have hold' : findMovie (upsertMovieRow tbl b) inc.movie_id
          = some old := by
        rw [findMovie_upsert_other tbl b inc.movie_id hbf]
        exact hold
      exact ih _ hbi hcnt' hold'

/-- C7: for a catalogue upsert batch in which `inc.movie_id` occurs once and
conflicts with an existing `movies` row `old`, the stored row afterwards has
`rating_amount = old.rating_amount + inc.rating_amount` (incremented, never
overwritten), and each descriptive field takes the incoming value only when
it is non-null (`COALESCE(EXCLUDED.x, movies.x)`) — in particular an
incoming `title = None` leaves the existing non-null title in place. -/
theorem C7_catalogue_conflict_merge (db : DB) (batch : List MovieInput)
    (inc : MovieInput) (old : MoviesRow)
    (hmem : inc ∈ batch)
    (huniq : batch.countP (fun x => x.movie_id == inc.movie_id) = 1)
    (hold : findMovie db.movies inc.movie_id = some old) :
    findMovie ((db_insert_movies db batch).movies) inc.movie_id =
      some ⟨old.movie_id, coalesce inc.title old.title,
            coalesce inc.poster_link old.poster_link,
            coalesce inc.release_year old.release_year,
            old.rating_amount + inc.rating_amount⟩ :=
  findMovie_fold_uniq batch inc old db.movies hmem huniq hold

/-- An existing catalogue row with a known title and release year. -/
def oldMovieRow : MoviesRow := ⟨"m1", some "Old Title", none, some 1999, 5⟩

/-- An incoming upsert row with a null title and a new poster link. -/
def incMovieInput : MovieInput := ⟨"m1", none, some "poster.jpg", none, 2⟩

/-- Witness for C7: the null incoming title does not clobber the existing
one, the poster is filled in, and `rating_amount` becomes 5 + 2. -/
theorem C7_witness :
    findMovie
        ((db_insert_movies ⟨[], [oldMovieRow], []⟩ [incMovieInput]).movies)
        "m1"
      = some ⟨"m1", some "Old Title", some "poster.jpg", some 1999, 7⟩ :=
  C7_catalogue_conflict_merge ⟨[], [oldMovieRow], []⟩ [incMovieInput]
    incMovieInput oldMovieRow (List.mem_cons_self incMovieInput [])
    (by decide) (by rfl)

lemma countP_map_userid (tbl : List UserPoolRow) (u : String)
    (name : Option String) (lp : Nat) :
    (tbl.map (fun r =>
        if r.user_id == u then (⟨r.user_id, name, lp⟩ : UserPoolRow)
        else r)).countP (fun r => r.user_id == u)
      = tbl.countP (fun r => r.user_id == u) := by
  induction tbl with
  | nil => rfl
  | cons a rest ih =>
    simp only [List.map_cons, List.countP_cons, ih]
    by_cases ha : (a.user_id == u) = true
    · simp [ha]
    · simp only [Bool.not_eq_true] at ha
      simp [ha]

/-- C9: a bookmark upsert replaces the account's `username` and
`last_page_scraped` unconditionally with the latest scrape's values
(last-write-wins, never a merge), and afterwards there is exactly one row
for that account, assuming the table respects the `user_id` primary key
(at most one row per account) beforehand. -/
theorem C9_bookmark_last_write_wins (tbl : List UserPoolRow) (u : String)
    (name : Option String) (lp : Nat)
    (hpk : tbl.countP (fun r => r.user_id == u) ≤ 1) :
    (upsertUserPoolTable tbl u name lp).countP (fun r => r.user_id == u)
        = 1 ∧
      ∀ r ∈ upsertUserPoolTable tbl u name lp, (r.user_id == u) = true →
        r.username = name ∧ r.last_page_scraped = lp := by
  unfold upsertUserPoolTable
  split
  · next hany =>
    constructor
    · rw [countP_map_userid]
      rcases List.any_eq_true.mp hany with ⟨r0, hr0, hp0⟩
      have hpos : 0 < tbl.countP (fun r => r.user_id == u) :=
        List.countP_pos_iff.mpr ⟨r0, hr0, hp0⟩
      omega
    · intro r hr hru
      rcases List.mem_map.mp hr with ⟨a, ha, hga⟩
      by_cases hau : (a.user_id == u) = true
      · rw [← hga, if_pos hau]
        exact ⟨rfl, rfl⟩
      · exfalso
        rw [← hga, if_neg hau] at hru
        exact hau hru
  · next hany =>
    have hall : ∀ r ∈ tbl, (r.user_id == u) = false := fun r hr => by
      rcases Bool.eq_false_or_eq_true (r.user_id == u) with hT | hF
      · exact absurd (List.any_eq_true.mpr ⟨r, hr, hT⟩) hany
      · exact hF
    constructor
    · rw [List.countP_append]
      have h0 : tbl.countP (fun r => r.user_id == u) = 0 :=
        List.countP_eq_zero.mpr (fun a ha => by simp [hall a ha])
      rw [h0]
      simp
    · intro r hr hru
      rcases List.mem_append.mp hr with h1 | h2
      · exact absurd hru (by simp [hall r h1])
      · have hr2 := List.mem_singleton.mp h2
        subst hr2
        exact ⟨rfl, rfl⟩

/-- Witness for C9 at a concrete one-row table. -/
theorem C9_witness :
    (upsertUserPoolTable [⟨"hank", some "Old", 2⟩] "hank" (some "New")
          7).countP (fun r => r.user_id == "hank") = 1 ∧
      ∀ r ∈ upsertUserPoolTable [⟨"hank", some "Old", 2⟩] "hank"
          (some "New") 7,
        (r.user_id == "hank") = true →
          r.username = some "New" ∧ r.last_page_scraped = 7 :=
  C9_bookmark_last_write_wins [⟨"hank", some "Old", 2⟩] "hank" (some "New")
    7 (by decide)

end Letterboxd
